import Mathlib

/-!
Shallow embedding of `dd1750_core.py` (and its call from `app.py`) from the
v12-ocr-debug repository, with proofs settling the specification claims about
BOM item extraction and DD1750 generation.

Python strings are modelled as `List Char` (all data relevant to the claims is
ASCII, where `str.upper`, `str.strip`, and the regular expressions used by the
source agree with the functions below).  `Optional[str]` table cells are
`Option (List Char)`.  Exceptions are modelled with `Except`: the source wraps
the whole extraction loop in `try ... except Exception: return []`
(`dd1750_core.py` lines 45 and 173-177), which the top level of
`extract_items_from_pdf` below reproduces.

Note on the source text: lines 99-103 of `dd1750_core.py` contain a
mis-indented `else:` (two `else:` clauses at the same depth, which CPython
rejects as a SyntaxError).  The embedding follows the only block structure
consistent with the two debug messages there: the first `else` belongs to
`if not is_b_item:` and the second to `if lv_cell:`.
-/

/-- Python strings are modelled as lists of characters. -/
abbrev Str := List Char

/-- One table cell as reported by pdfplumber: `Optional[str]`. -/
abbrev Cell := Option Str

/-- One extracted table: a list of rows of optional text cells. -/
abbrev Table := List (List Cell)

/-- One BOM page, modelled by the result of `page.extract_tables()`. -/
abbrev PPage := List Table

/-- Convert a Lean string literal into the character-list model. -/
def toL (s : String) : Str := s.toList

/-- Whitespace characters of Python's `str.strip()` / regex `\s` (ASCII range). -/
def isWS (c : Char) : Bool :=
  c == ' ' || c == '\t' || c == '\n' || c == '\r' || c == '\x0B' || c == '\x0C'

/-- Word characters of Python's regex `\w` (ASCII range). -/
def isWordChar (c : Char) : Bool := c.isAlphanum || c == '_'

/-- Python `str.upper()` (ASCII range). -/
def pyUpper (s : Str) : Str := s.map Char.toUpper

/-- Remove trailing whitespace (Python `str.rstrip()`). -/
def rstripWS (s : Str) : Str := (s.reverse.dropWhile isWS).reverse

/-- Python `str.strip()`: remove leading and trailing whitespace. -/
def pyStrip (s : Str) : Str := rstripWS (s.dropWhile isWS)

/-- Whether `pat` is a prefix of `hay` (character-wise). -/
def startsWithL : Str → Str → Bool
  | _, [] => true
  | [], _ :: _ => false
  | c :: t, p :: ps => c == p && startsWithL t ps

/-- Python's substring test `pat in hay`. -/
def containsSub : Str → Str → Bool
  | [], pat => pat.isEmpty
  | c :: t, pat => startsWithL (c :: t) pat || containsSub t pat

/-- Python `text.split('\n')`: never returns an empty list. -/
def splitNl : Str → List Str
  | [] => [[]]
  | c :: t =>
    if c == '\n' then [] :: splitNl t
    else
      match splitNl t with
      | [] => [[c]]
      | l :: ls => (c :: l) :: ls

/-- Python `re.sub(r'\s+', ' ', s)`: replace each maximal whitespace run by one
space (source line 126 applies `.strip()` afterwards separately). -/
def collapseWS : Str → Str
  | [] => []
  | [c] => if isWS c then [' '] else [c]
  | c :: c2 :: t =>
    if isWS c then
      if isWS c2 then collapseWS (c2 :: t) else ' ' :: collapseWS (c2 :: t)
    else c :: collapseWS (c2 :: t)

/-- The trailing keyword alternatives of source line 125. -/
def KEYWORDS : List Str :=
  [toL "WTY", toL "ARC", toL "CIIC", toL "UI", toL "SCMC", toL "EA",
   toL "AY", toL "9K", toL "9G"]

/-- Whether `s` ends with keyword `kw`, case-insensitively (`kw` is uppercase). -/
def endsWithCI (s kw : Str) : Bool :=
  decide (kw.length ≤ s.length) && (pyUpper (s.drop (s.length - kw.length)) == kw)

/-- Whether `s` is nonempty and its last character is whitespace. -/
def endsInWS (s : Str) : Bool :=
  match s.getLast? with
  | some c => isWS c
  | none => false

/-- Source line 125: `re.sub(r'\s+(WTY|ARC|CIIC|UI|SCMC|EA|AY|9K|9G)$', '', s,
flags=re.IGNORECASE)`.  The regex matches (and deletes) the maximal whitespace
run directly preceding a final keyword; at most one keyword can occupy the end
of the string (none of the keywords is a suffix of another), and the input at
this point in the pipeline contains no newline, so `$` means end of string. -/
def stripKw (s : Str) : Str :=
  match KEYWORDS.find? (fun kw =>
      endsWithCI s kw && endsInWS (s.take (s.length - kw.length))) with
  | some kw => rstripWS (s.take (s.length - kw.length))
  | none => s

/-- Whether a 9-digit `\b`-bounded run starts at the current position, where
`prev` is the character just before that position (`none` at string start). -/
def nsnHere (prev : Option Char) (s : Str) : Option Str :=
  let d := s.take 9
  if decide (d.length = 9) && d.all Char.isDigit
      && (match prev with | none => true | some c => !isWordChar c)
      && (match s.drop 9 with | [] => true | c :: _ => !isWordChar c) then
    some d
  else none

/-- Scan for the leftmost match of `\b(\d{9})\b` (source line 139). -/
def findNSNAux (prev : Option Char) : Str → Option Str
  | [] => none
  | c :: t =>
    match nsnHere prev (c :: t) with
    | some d => some d
    | none => findNSNAux (some c) t

/-- Source lines 135-141: the NSN defaults to `""` when nothing matches. -/
def findNSN (s : Str) : Str :=
  match findNSNAux none s with
  | some d => d
  | none => []

/-- Python `re.search(r'(\d+)', s)`: the leftmost maximal digit run. -/
def findDigitRun : Str → Option Str
  | [] => none
  | c :: t =>
    if c.isDigit then some (c :: t.takeWhile Char.isDigit) else findDigitRun t

/-- Python `int` of a digit string (arbitrary precision). -/
def natOfDigits (ds : Str) : Nat :=
  ds.foldl (fun n c => n * 10 + (c.toNat - '0'.toNat)) 0

/-- Python truthiness of a cell: not `None` and not the empty string. -/
def truthy (c : Cell) : Bool :=
  match c with
  | some s => !s.isEmpty
  | none => false

/-- Header keyword test for the level column (source line 68). -/
def lvKey (t : Str) : Bool := containsSub t (toL "LV") || containsSub t (toL "LEVEL")

/-- Header keyword test for the description column (source line 70). -/
def descKey (t : Str) : Bool :=
  containsSub t (toL "DESC") || containsSub t (toL "NOMENCLATURE")
    || containsSub t (toL "PART NO.")

/-- Header keyword test for the material column (source line 72). -/
def matKey (t : Str) : Bool := containsSub t (toL "MATERIAL")

/-- Header keyword test `'AUTH' in text and 'QTY' in text` (source line 74). -/
def authKey (t : Str) : Bool := containsSub t (toL "AUTH") && containsSub t (toL "QTY")

/-- Header keyword test `'OH' in text and 'QTY' in text` (source line 76). -/
def ohKey (t : Str) : Bool := containsSub t (toL "OH") && containsSub t (toL "QTY")

/-- Resolved column indices (`-1` in the source is `none` here). -/
structure RoleIdx where
  lv : Option Nat
  desc : Option Nat
  mat : Option Nat
  auth : Option Nat
deriving DecidableEq

/-- One step of the header loop of source lines 65-77 (an `elif` chain; both
the `AUTH`/`QTY` branch and the `OH`/`QTY` branch assign `auth_idx`). -/
def resolveStep (r : RoleIdx) (i : Nat) (c : Cell) : RoleIdx :=
  match c with
  | none => r
  | some s =>
    if s.isEmpty then r
    else
      let t := pyUpper s
      if lvKey t then { r with lv := some i }
      else if descKey t then { r with desc := some i }
      else if matKey t then { r with mat := some i }
      else if authKey t then { r with auth := some i }
      else if ohKey t then { r with auth := some i }
      else r

/-- The header loop of source lines 63-77, carrying the running index. -/
def resolveAux : Nat → List Cell → RoleIdx → RoleIdx
  | _, [], r => r
  | i, c :: t, r => resolveAux (i + 1) t (resolveStep r i c)

/-- Column role resolution for one table header (source lines 62-77). -/
def resolveHeader (hdr : List Cell) : RoleIdx :=
  resolveAux 0 hdr ⟨none, none, none, none⟩

/-- Condition of the fallback scan of source lines 154-156:
`cell and 'OH' in str(cell).upper() and 'QTY' in str(cell).upper()`. -/
def ohCellMatch (c : Cell) : Bool :=
  match c with
  | some s => !s.isEmpty && containsSub (pyUpper s) (toL "OH")
      && containsSub (pyUpper s) (toL "QTY")
  | none => false

/-- The fallback loop of source lines 153-156 (last matching index wins). -/
def lastOhAux : Nat → List Cell → Option Nat → Option Nat
  | _, [], acc => acc
  | i, c :: t, acc => lastOhAux (i + 1) t (if ohCellMatch c then some i else acc)

/-- Index of the last header cell containing both `OH` and `QTY`. -/
def lastOhIdx (hdr : List Cell) : Option Nat := lastOhAux 0 hdr none

/-- Description normalization of source lines 109-126, applied to a truthy
description cell: strip, split on newlines, take line 1 if at least two lines
else line 0, truncate at the first `'('`, delete one trailing whitespace-
preceded keyword, collapse whitespace runs, strip. -/
def normDesc (t : Str) : Str :=
  let text := pyStrip t
  let lines := splitNl text
  let d1 := if decide (2 ≤ lines.length) then pyStrip (lines.getD 1 [])
            else pyStrip (lines.getD 0 [])
  let d2 := if d1.contains '(' then pyStrip (d1.takeWhile (fun c => c != '('))
            else d1
  pyStrip (collapseWS (stripKw d2))

/-- One extracted line item (source lines 34-39). -/
structure BomItem where
  line_no : Nat
  description : Str
  nsn : Str
  qty : Nat
deriving DecidableEq

/-- The level acceptance of source lines 90-103 (with the mis-indented `else`
of line 99 read per the debug messages, see the module comment): a row passes
iff its level cell is truthy and its stripped text is nonempty and contains
the letter `B` after uppercasing (`is_b_item = lv_text and ('B' in
lv_text.upper() or not lv_text)`; the second disjunct is dead code). -/
def levelOk (c : Cell) : Bool :=
  match c with
  | none => false
  | some s =>
    if s.isEmpty then false
    else
      let lvText := pyStrip s
      !lvText.isEmpty && (containsSub (pyUpper lvText) (toL "B") || lvText.isEmpty)

/-- The description computed by source lines 106-128 (empty when the cell is
absent or falsy; the emptiness test of line 130 rejects the row). -/
def descOf (c : Cell) : Str :=
  match c with
  | none => []
  | some t => if t.isEmpty then [] else normDesc t

/-- NSN extraction of source lines 134-141.  `row[mat_idx]` is unguarded in
the source, so an out-of-range material index raises (IndexError), modelled
as `Except.error`. -/
def getNsn (mat : Option Nat) (row : List Cell) : Except Unit Str :=
  match mat with
  | none => .ok []
  | some m =>
    if h : m < row.length then
      match row.get ⟨m, h⟩ with
      | none => .ok []
      | some s => if s.isEmpty then .ok [] else .ok (findNSN s)
    else .error ()

/-- Quantity parse of one cell (source lines 144-150 / 158-162): default 1,
else the integer value of the first digit run. -/
def parseQtyCell (c : Cell) : Nat :=
  match c with
  | none => 1
  | some s =>
    if s.isEmpty then 1
    else
      match findDigitRun s with
      | some ds => natOfDigits ds
      | none => 1

/-- Quantity extraction of source lines 143-162.  When `auth_idx == -1` the
source rescans the header for the last cell containing `OH` and `QTY`
(lines 153-156).  `row[auth_idx]` / `row[oh_qty_idx]` are unguarded. -/
def getQty (hdr : List Cell) : Option Nat → List Cell → Except Unit Nat
  | some a, row =>
    if h : a < row.length then .ok (parseQtyCell (row.get ⟨a, h⟩)) else .error ()
  | none, row =>
    match lastOhIdx hdr with
    | some o =>
      if h : o < row.length then .ok (parseQtyCell (row.get ⟨o, h⟩)) else .error ()
    | none => .ok 1

/-- Processing of one data row (source lines 85-171), given the resolved
`lv`/`desc` indices, the optional `mat`/`auth` indices, the header (for the
quantity fallback scan) and `n`, the number of items already emitted.
`ok none` is a skipped row, `ok (some it)` an emitted item with
`line_no = n + 1` (source line 166), `error` an uncaught IndexError. -/
def processRow (hdr : List Cell) (lv d : Nat) (mat auth : Option Nat)
    (row : List Cell) (n : Nat) : Except Unit (Option BomItem) :=
  if !(row.any truthy) then .ok none
  else if !(levelOk (row.getD lv none)) then .ok none
  else if (descOf (row.getD d none)).isEmpty then .ok none
  else
    match getNsn mat row, getQty hdr auth row with
    | .error e, _ => .error e
    | .ok _, .error e => .error e
    | .ok nsn, .ok qty =>
      .ok (some ⟨n + 1, (descOf (row.getD d none)).take 100, nsn, qty⟩)

/-- The row loop of source lines 85-171, threading the accumulated items. -/
def processRows (hdr : List Cell) (lv d : Nat) (mat auth : Option Nat) :
    List (List Cell) → List BomItem → Except Unit (List BomItem)
  | [], items => .ok items
  | row :: rest, items =>
    match processRow hdr lv d mat auth row items.length with
    | .error e => .error e
    | .ok none => processRows hdr lv d mat auth rest items
    | .ok (some it) => processRows hdr lv d mat auth rest (items ++ [it])

/-- Processing of one table (source lines 55-171): tables with fewer than two
rows are skipped (line 56), as are tables without both a level and a
description column (line 81). -/
def processTable : Table → List BomItem → Except Unit (List BomItem)
  | [], items => .ok items
  | [_], items => .ok items
  | hdr :: r1 :: rest, items =>
    match (resolveHeader hdr).lv, (resolveHeader hdr).desc with
    | some lv, some d =>
      processRows hdr lv d (resolveHeader hdr).mat (resolveHeader hdr).auth
        (r1 :: rest) items
    | _, _ => .ok items

/-- The table loop of source line 55. -/
def processTables : List Table → List BomItem → Except Unit (List BomItem)
  | [], items => .ok items
  | t :: ts, items =>
    match processTable t items with
    | .error e => .error e
    | .ok items2 => processTables ts items2

/-- The page loop of source line 50. -/
def processPages : List PPage → List BomItem → Except Unit (List BomItem)
  | [], items => .ok items
  | p :: ps, items =>
    match processTables p items with
    | .error e => .error e
    | .ok items2 => processPages ps items2

/-- The guarded body of `extract_items_from_pdf`: iterate
`pdf.pages[start_page:]` (source line 50) starting from no items. -/
def extractCore (pages : List PPage) (sp : Nat) : Except Unit (List BomItem) :=
  processPages (pages.drop sp) []

/-- `extract_items_from_pdf` (source lines 42-181).  `doc = none` models a
document that cannot be opened; every exception inside the loop is caught by
lines 173-177 and converted to `[]`. -/
def extract_items_from_pdf : Option (List PPage) → Nat → List BomItem
  | none, _ => []
  | some pages, sp =>
    match extractCore pages sp with
    | .ok items => items
    | .error _ => []

/-- One page of the output document: the index of the template page it is
based on, and the items drawn onto it (empty overlay = template page
unchanged, as in the zero-item fallback of source lines 190-199). -/
structure OutPage where
  base : Nat
  overlay : List BomItem
deriving DecidableEq

/-- Exceptions that can escape `generate_dd1750_from_pdf`. -/
inductive PyErr where
  | indexError
  | writeError
deriving DecidableEq

/-- Template page selection of source lines 242-245: reuse page 0 when the
template has fewer pages than needed. -/
def selectTemplatePage (k tplLen : Nat) : Nat := if k < tplLen then k else 0

/-- Source line 201: `math.ceil(len(items) / ROWS_PER_PAGE)` with
`ROWS_PER_PAGE = 18`.  The source divides as IEEE doubles before `math.ceil`;
for every length below `2 ^ 52` this equals the exact ceiling `(n + 17) / 18`
embedded here. -/
def ceilD (n : Nat) : Nat := (n + 17) / 18

/-- The page-building loop of source lines 205-248: page `k` holds
`items[start_idx:end_idx]` with `start_idx = 18 * k` and
`end_idx = min(18 * (k + 1), len(items))`, merged onto template page
`selectTemplatePage k tplLen`. -/
def buildPages (items : List BomItem) (tplLen : Nat) : List OutPage :=
  (List.range (ceilD items.length)).map fun k =>
    ⟨selectTemplatePage k tplLen,
     (items.drop (18 * k)).take (min (18 * (k + 1)) items.length - 18 * k)⟩

/-- The body of `generate_dd1750_from_pdf` after extraction (source lines
187-273), as a function of the extracted items.  `tplLen` is the template's
page count; `wOk` tells whether writing the assembled document to `out_path`
succeeds, `fbOk` whether the fallback write of the bare template page
succeeds.  Returned value: the final file contents (`none` when no complete
document was written) and the item count the caller receives.
 * zero items (lines 190-199): the template's first page is written outside
   any `try`, so a failing write raises;
 * otherwise (lines 201-273): an empty template raises IndexError at
   `template.pages[0]`; a failed write is caught (lines 257-271), the bare
   template page is attempted instead, any failure of that is swallowed by
   `except: pass`, and `(out_path, len(items))` is returned regardless. -/
def generateFromItems (items : List BomItem) (tplLen : Nat) (wOk fbOk : Bool) :
    Except PyErr (Option (List OutPage) × Nat) :=
  if items.isEmpty then
    if tplLen = 0 then .error .indexError
    else if wOk then .ok (some [⟨0, []⟩], 0)
    else .error .writeError
  else
    if tplLen = 0 then .error .indexError
    else if wOk then .ok (some (buildPages items tplLen), items.length)
    else if fbOk then .ok (some [⟨0, []⟩], items.length)
    else .ok (none, items.length)

/-- `generate_dd1750_from_pdf` (source lines 184-273).  Its signature has no
start-page parameter: line 185 always calls `extract_items_from_pdf(bom_path)`
with the default `start_page = 0`. -/
def generate_dd1750_from_pdf (doc : Option (List PPage)) (tplLen : Nat)
    (wOk fbOk : Bool) : Except PyErr (Option (List OutPage) × Nat) :=
  generateFromItems (extract_items_from_pdf doc 0) tplLen wOk fbOk

/-- Modelled from the spec: the Paginator of section 4.4, partitioning the
item list into successive slices of at most 18 items. -/
def pageChunks : List BomItem → List (List BomItem)
  | [] => []
  | c :: t => ((c :: t).take 18) :: pageChunks ((c :: t).drop 18)
termination_by l => l.length
decreasing_by simp [List.length_drop]; omega

/-- Modelled from the claim C3 wording: a level cell is accepted iff its
trimmed text is nonempty and begins with the letter `B` (tolerating a
lowercase `b`, the reading most favourable to the claim). -/
def specLevelAccepts (s : Str) : Bool :=
  match pyStrip s with
  | c :: _ => c == 'B' || c == 'b'
  | [] => false

/-- Modelled from the claim C8 wording: normalize the raw description text
with no initial trimming - split the raw text on newlines, take the second
line if there are at least two, else the only one, truncate at the first
`'('`, strip one trailing whitespace-delimited keyword, collapse whitespace
runs and trim. -/
def specDescLit (s : Str) : Str :=
  let lines := splitNl s
  let d1 := if decide (2 ≤ lines.length) then lines.getD 1 [] else lines.getD 0 []
  let d2 := d1.takeWhile (fun c => c != '(')
  pyStrip (collapseWS (stripKw d2))

/-- Whether a header cell reaches the `auth_idx` assignments of source lines
74-77: it is truthy, matches neither of the earlier `elif` branches, and
contains `AUTH`+`QTY` or `OH`+`QTY`. -/
def qtySets (c : Cell) : Bool :=
  match c with
  | some s => !s.isEmpty &&
      (let t := pyUpper s
       !lvKey t && !descKey t && !matKey t && (authKey t || ohKey t))
  | none => false

/-- The index of the last header cell satisfying `qtySets`, counting from
`i`: the rightmost-match semantics of the header loop. -/
def lastQtyIdx : Nat → List Cell → Option Nat
  | _, [] => none
  | i, c :: t =>
    match lastQtyIdx (i + 1) t with
    | some j => some j
    | none => if qtySets c then some i else none

/-- Sequential line numbering: entry `i` carries `line_no = i + 1`. -/
def LinedUp (l : List BomItem) : Prop :=
  ∀ i, i < l.length → (l.getD i ⟨0, [], [], 0⟩).line_no = i + 1

/-- A minimal valid table: one item with description `ALPHA`. -/
def tblA : Table :=
  [[some (toL "LV"), some (toL "DESC")], [some (toL "B"), some (toL "ALPHA")]]

/-- A minimal valid table: one item with description `BRAVO`. -/
def tblB2 : Table :=
  [[some (toL "LV"), some (toL "DESC")], [some (toL "B"), some (toL "BRAVO")]]

/-- A one-page document with a single extractable item. -/
def docA : List PPage := [[tblA]]

/-- A two-page document with one extractable item per page. -/
def docB : List PPage := [[tblA], [tblB2]]

/-- A document whose only row has level text `AB`: it contains a `B` but does
not begin with one. -/
def docC : List PPage :=
  [[[[some (toL "LV"), some (toL "DESC")],
     [some (toL "AB"), some (toL "WIDGET")]]]]

/-- A document whose description cell is `"\nCHEST\nWRENCH"`: line index 1 of
the raw text is `CHEST`, but the source strips the text first and so takes
`WRENCH`. -/
def docD : List PPage :=
  [[[[some (toL "LV"), some (toL "DESC")],
     [some (toL "B"), some (toL "\nCHEST\nWRENCH")]]]]

/-- A document whose quantity cell is `"0"`: the parsed quantity is zero. -/
def docE : List PPage :=
  [[[[some (toL "LV"), some (toL "DESC"), some (toL "AUTH QTY")],
     [some (toL "B"), some (toL "GADGET"), some (toL "0")]]]]

/-- A document with a `MATERIAL` column whose data row is shorter than the
material index: `row[mat_idx]` raises IndexError inside the loop. -/
def docF : List PPage :=
  [[[[some (toL "LV"), some (toL "DESC"), some (toL "MATERIAL")],
     [some (toL "B"), some (toL "TOOL")]]]]

/-- A document whose header has an `OH QTY` column (holding 5) before an
`AUTH QTY` column (holding 7). -/
def docQ : List PPage :=
  [[[[some (toL "LV"), some (toL "DESC"), some (toL "OH QTY"), some (toL "AUTH QTY")],
     [some (toL "B"), some (toL "THING"), some (toL "5"), some (toL "7")]]]]


/-- A truthy level cell passes source lines 90-103 iff its stripped text is
nonempty and its uppercase form contains the letter `B`. -/
theorem levelOk_true_iff (c : Cell) :
    levelOk c = true ↔ ∃ s, c = some s ∧ s ≠ [] ∧ pyStrip s ≠ [] ∧
      containsSub (pyUpper (pyStrip s)) (toL "B") = true := by
  cases c with
  | none => simp [levelOk]
  | some s =>
    by_cases hs : s.isEmpty
    · rw [List.isEmpty_iff] at hs
      subst hs
      simp [levelOk]
    · have hs' : s ≠ [] := by simpa [List.isEmpty_iff] using hs
      by_cases h1 : (pyStrip s).isEmpty
      · rw [List.isEmpty_iff] at h1
        simp [levelOk, hs, h1]
      · have h1' : pyStrip s ≠ [] := by simpa [List.isEmpty_iff] using h1
        simp [levelOk, hs, h1, hs', h1']

/-- A level cell whose uppercase stripped text does not contain `B` fails the
level check (this covers `None`, empty, and all-whitespace cells as well). -/
theorem levelOk_false_of_noB {c : Cell}
    (h : ∀ s, c = some s → containsSub (pyUpper (pyStrip s)) (toL "B") = false) :
    levelOk c = false := by
  cases c with
  | none => rfl
  | some s =>
    by_cases hs : s.isEmpty
    · simp [levelOk, hs]
    · by_cases h1 : (pyStrip s).isEmpty
      · simp [levelOk, hs, h1]
      · simp [levelOk, hs, h1, h s rfl]

/-- Characterization of an emitted row: every field of the item produced by
source lines 85-171, given `n` items already accumulated. -/
theorem processRow_emit {hdr : List Cell} {lv d : Nat} {mat auth : Option Nat}
    {row : List Cell} {n : Nat} {it : BomItem}
    (h : processRow hdr lv d mat auth row n = .ok (some it)) :
    it.line_no = n + 1 ∧
    levelOk (row.getD lv none) = true ∧
    descOf (row.getD d none) ≠ [] ∧
    it.description = (descOf (row.getD d none)).take 100 ∧
    getNsn mat row = .ok it.nsn ∧
    getQty hdr auth row = .ok it.qty := by
  unfold processRow at h
  cases hany : row.any truthy with
  | false => rw [hany] at h; simp at h
  | true =>
    rw [hany] at h
    cases hlvl : levelOk (row.getD lv none) with
    | false => rw [hlvl] at h; simp at h
    | true =>
      rw [hlvl] at h
      cases hdesc : (descOf (row.getD d none)).isEmpty with
      | true => rw [hdesc] at h; simp at h
      | false =>
        rw [hdesc] at h
        simp only [Bool.not_true, Bool.not_false, if_true, if_false] at h
        have hdesc' : descOf (row.getD d none) ≠ [] := by
          intro hc
          rw [hc] at hdesc
          simp at hdesc
        cases hnsn : getNsn mat row with
        | error e => rw [hnsn] at h; simp at h
        | ok nsn =>
          cases hqty : getQty hdr auth row with
          | error e => rw [hnsn, hqty] at h; simp at h
          | ok qty =>
            rw [hnsn, hqty] at h
            injection h with h1
            injection h1 with h2
            subst h2
            exact ⟨rfl, rfl, hdesc', rfl, rfl, rfl⟩

/-- A row whose level check fails is skipped (source lines 96-98, 101-103). -/
theorem processRow_skip_of_levelFail {hdr : List Cell} {lv d : Nat}
    {mat auth : Option Nat} {row : List Cell} {n : Nat}
    (hlv : levelOk (row.getD lv none) = false) :
    processRow hdr lv d mat auth row n = .ok none := by
  unfold processRow
  cases hany : row.any truthy with
  | false => rfl
  | true => rw [hlv]; rfl

/-- A row whose normalized description is empty is skipped (source lines
130-132). -/
theorem processRow_skip_of_descEmpty {hdr : List Cell} {lv d : Nat}
    {mat auth : Option Nat} {row : List Cell} {n : Nat}
    (hd : descOf (row.getD d none) = []) :
    processRow hdr lv d mat auth row n = .ok none := by
  unfold processRow
  cases hany : row.any truthy with
  | false => rfl
  | true =>
    cases hlvl : levelOk (row.getD lv none) with
    | false => rfl
    | true => rw [hd]; rfl

/-- The empty item list is correctly numbered. -/
theorem linedUp_nil : LinedUp [] := by
  intro i hi
  simp at hi

/-- Appending an item numbered `length + 1` preserves correct numbering
(source line 166: `line_no=len(items) + 1`). -/
theorem linedUp_append {l : List BomItem} {it : BomItem} (h : LinedUp l)
    (hit : it.line_no = l.length + 1) : LinedUp (l ++ [it]) := by
  intro i hi
  rw [List.length_append] at hi
  rcases Nat.lt_or_ge i l.length with hlt | hge
  · have hi' : i < (l ++ [it]).length := by simpa [List.length_append] using hi
    rw [List.getD_eq_getElem _ _ hi', List.getElem_append_left hlt]
    have h0 := h i hlt
    rwa [List.getD_eq_getElem _ _ hlt] at h0
  · have hieq : i = l.length := by simp at hi; omega
    subst hieq
    have hi' : l.length < (l ++ [it]).length := by simp
    rw [List.getD_eq_getElem _ _ hi', List.getElem_concat_length _ _ _ rfl]
    exact hit

/-- The row loop preserves correct numbering of the accumulated list. -/
theorem processRows_lined {hdr : List Cell} {lv d : Nat} {mat auth : Option Nat} :
    ∀ (rows : List (List Cell)) (items out : List BomItem), LinedUp items →
      processRows hdr lv d mat auth rows items = .ok out → LinedUp out := by
  intro rows
  induction rows with
  | nil =>
    intro items out h hp
    unfold processRows at hp
    injection hp with hp
    rwa [← hp]
  | cons row rest ih =>
    intro items out h hp
    unfold processRows at hp
    cases hpr : processRow hdr lv d mat auth row items.length with
    | error e => rw [hpr] at hp; simp at hp
    | ok o =>
      rw [hpr] at hp
      cases o with
      | none => exact ih items out h hp
      | some it => exact ih _ out (linedUp_append h (processRow_emit hpr).1) hp

/-- Processing one table preserves correct numbering. -/
theorem processTable_lined {tbl : Table} {items out : List BomItem}
    (h : LinedUp items) (hp : processTable tbl items = .ok out) : LinedUp out := by
  match tbl with
  | [] =>
    injection hp with hp
    rwa [← hp]
  | [r] =>
    injection hp with hp
    rwa [← hp]
  | hdr :: r1 :: rest =>
    simp only [processTable] at hp
    split at hp
    all_goals first
      | exact processRows_lined _ items out h hp
      | (injection hp with hp; rwa [← hp])

/-- The table loop preserves correct numbering. -/
theorem processTables_lined :
    ∀ (ts : List Table) (items out : List BomItem), LinedUp items →
      processTables ts items = .ok out → LinedUp out := by
  intro ts
  induction ts with
  | nil =>
    intro items out h hp
    injection hp with hp
    rwa [← hp]
  | cons t rest ih =>
    intro items out h hp
    unfold processTables at hp
    cases hpt : processTable t items with
    | error e => rw [hpt] at hp; simp at hp
    | ok items2 => rw [hpt] at hp; exact ih items2 out (processTable_lined h hpt) hp

/-- The page loop preserves correct numbering. -/
theorem processPages_lined :
    ∀ (ps : List PPage) (items out : List BomItem), LinedUp items →
      processPages ps items = .ok out → LinedUp out := by
  intro ps
  induction ps with
  | nil =>
    intro items out h hp
    injection hp with hp
    rwa [← hp]
  | cons p rest ih =>
    intro items out h hp
    unfold processPages at hp
    cases hpt : processTables p items with
    | error e => rw [hpt] at hp; simp at hp
    | ok items2 => rw [hpt] at hp; exact ih items2 out (processTables_lined p items items2 h hpt) hp

/-- Every extraction result is correctly numbered. -/
theorem extract_linedUp (doc : Option (List PPage)) (sp : Nat) :
    LinedUp (extract_items_from_pdf doc sp) := by
  cases doc with
  | none => exact linedUp_nil
  | some pages =>
    have hrw : extract_items_from_pdf (some pages) sp
        = (match extractCore pages sp with
           | .ok items => items
           | .error _ => []) := rfl
    rw [hrw]
    cases hc : extractCore pages sp with
    | error e => exact linedUp_nil
    | ok items =>
      unfold extractCore at hc
      exact processPages_lined _ [] items linedUp_nil hc

/-- C7: for every run and every index `i` into the extracted item list,
`items[i].line_no = i + 1` - line numbers start at 1, increase by 1 per
emitted item across the whole document, with no gaps or reuse. -/
theorem C7_line_numbers (doc : Option (List PPage)) (sp i : Nat)
    (h : i < (extract_items_from_pdf doc sp).length) :
    ((extract_items_from_pdf doc sp).getD i ⟨0, [], [], 0⟩).line_no = i + 1 :=
  extract_linedUp doc sp i h

/-- Witness for C7 at the two-page document `docB`. -/
theorem C7_line_numbers_witness :
    1 < (extract_items_from_pdf (some docB) 0).length ∧
    ((extract_items_from_pdf (some docB) 0).getD 1 ⟨0, [], [], 0⟩).line_no = 1 + 1 :=
  ⟨by decide, C7_line_numbers (some docB) 0 1 (by decide)⟩

/-- C6: `extract_items_from_pdf` is a total function (it never raises): it
returns `[]` for a document that cannot be opened, returns `[]` whenever the
guarded extraction loop raises internally (lines 173-177), and returns `[]`
for every start page at or beyond the document's page count. -/
theorem C6_never_raises :
    (∀ sp, extract_items_from_pdf none sp = []) ∧
    (∀ (pages : List PPage) (sp : Nat), extractCore pages sp = .error () →
        extract_items_from_pdf (some pages) sp = []) ∧
    (∀ (pages : List PPage) (sp : Nat), pages.length ≤ sp →
        extract_items_from_pdf (some pages) sp = []) := by
  refine ⟨fun sp => rfl, ?_, ?_⟩
  · intro pages sp h
    have hrw : extract_items_from_pdf (some pages) sp
        = (match extractCore pages sp with
           | .ok items => items
           | .error _ => []) := rfl
    rw [hrw, h]
  · intro pages sp h
    have hrw : extract_items_from_pdf (some pages) sp
        = (match extractCore pages sp with
           | .ok items => items
           | .error _ => []) := rfl
    have hcore : extractCore pages sp = .ok [] := by
      unfold extractCore
      rw [List.drop_eq_nil_of_le h]
      rfl
    rw [hrw, hcore]

/-- Witness for C6: an unopenable document, a document (`docF`) whose
material-column access raises an IndexError inside the loop, and a start page
beyond the last page, all yield `[]`. -/
theorem C6_never_raises_witness :
    extract_items_from_pdf none 3 = [] ∧
    (extractCore docF 0 = .error () ∧ extract_items_from_pdf (some docF) 0 = []) ∧
    (docF.length ≤ 5 ∧ extract_items_from_pdf (some docF) 5 = []) :=
  ⟨C6_never_raises.1 3,
   ⟨rfl, C6_never_raises.2.1 docF 0 rfl⟩,
   ⟨by decide, C6_never_raises.2.2 docF 5 (by decide)⟩⟩

/-- C10: a table with fewer than 2 rows is skipped entirely (source lines
56-58): it contributes no items and does not disturb the processing of the
surrounding tables. -/
theorem C10_short_table_skip (ts1 ts2 : List Table) (t : Table)
    (items : List BomItem) (h : t.length < 2) :
    processTables (ts1 ++ t :: ts2) items = processTables (ts1 ++ ts2) items := by
  induction ts1 generalizing items with
  | nil =>
    simp only [List.nil_append]
    have ht : processTable t items = .ok items := by
      match t, h with
      | [], _ => rfl
      | [r], _ => rfl
      | a :: b :: rest, h => simp at h; omega
    rw [processTables, ht]
  | cons t1 rest ih =>
    simp only [List.cons_append]
    unfold processTables
    cases hpt : processTable t1 items with
    | error e => rfl
    | ok items2 => exact ih items2

/-- Witness for C10 at a concrete one-row table. -/
theorem C10_short_table_skip_witness :
    ([[some (toL "X")]] : Table).length < 2 ∧
    processTables [[[some (toL "X")]], tblA] []
      = processTables [tblA] [] :=
  ⟨by decide, by
    have h := C10_short_table_skip [] [tblA] [[some (toL "X")]] [] (by decide)
    simpa using h⟩

/-- Effect of one header cell on `auth_idx`: it is overwritten exactly when
the cell reaches one of the two quantity branches of the `elif` chain. -/
theorem resolveStep_auth (r : RoleIdx) (i : Nat) (c : Cell) :
    (resolveStep r i c).auth = if qtySets c then some i else r.auth := by
  cases c with
  | none => rfl
  | some s =>
    by_cases hs : s.isEmpty
    · simp [resolveStep, qtySets, hs]
    · by_cases h1 : lvKey (pyUpper s) <;>
        by_cases h2 : descKey (pyUpper s) <;>
        by_cases h3 : matKey (pyUpper s) <;>
        by_cases h4 : authKey (pyUpper s) <;>
        by_cases h5 : ohKey (pyUpper s) <;>
        simp [resolveStep, qtySets, hs, h1, h2, h3, h4, h5]

/-- The header loop's final `auth_idx` is the last quantity-matching cell, if
any, else whatever it started as. -/
theorem resolveAux_auth (l : List Cell) :
    ∀ (i : Nat) (r : RoleIdx),
      (resolveAux i l r).auth
        = (match lastQtyIdx i l with
           | some j => some j
           | none => r.auth) := by
  induction l with
  | nil => intro i r; rfl
  | cons c t ih =>
    intro i r
    unfold resolveAux lastQtyIdx
    rw [ih (i + 1) (resolveStep r i c), resolveStep_auth]
    cases hq : lastQtyIdx (i + 1) t <;> cases hqs : qtySets c <;> simp [hq, hqs]

/-- C4 amended: the quantity role resolves to the rightmost header cell that
reaches the quantity branches of the `elif` chain (both the `AUTH QTY` and the
`OH QTY` branch assign the same `auth_idx`, so the last match wins); an
`OH QTY` column is preferred only when it appears after the `AUTH QTY`
column, not regardless of order. -/
theorem C4_quantity_lastMatchWins (hdr : List Cell) :
    (resolveHeader hdr).auth = lastQtyIdx 0 hdr := by
  unfold resolveHeader
  rw [resolveAux_auth]
  cases h : lastQtyIdx 0 hdr <;> simp

/-- C4 counterexample: in `docQ` the header holds `OH QTY` at index 2 (cell
value 5) and `AUTH QTY` at index 3 (cell value 7).  The claim requires the
quantity to come from the `OH QTY` column (5); the code resolves the
quantity role to index 3 and emits quantity 7. -/
theorem C4_counterexample :
    extract_items_from_pdf (some docQ) 0 = [⟨1, toL "THING", [], 7⟩] ∧
    (resolveHeader [some (toL "LV"), some (toL "DESC"), some (toL "OH QTY"),
        some (toL "AUTH QTY")]).auth = some 3 ∧
    (7 : Nat) ≠ 5 :=
  ⟨by decide, by decide, by decide⟩

/-- C3 amended: a data row is emitted only if its level cell is present,
truthy, and its stripped text is nonempty and contains the letter `B`
(case-insensitively) anywhere - a containment test, not a prefix test; a row
whose level cell is absent or whose stripped uppercase text has no `B` is
skipped. -/
theorem C3_level_containsB (hdr : List Cell) (lv d : Nat) (mat auth : Option Nat)
    (row : List Cell) (n : Nat) :
    (∀ it, processRow hdr lv d mat auth row n = .ok (some it) →
        ∃ s, row.getD lv none = some s ∧ s ≠ [] ∧ pyStrip s ≠ [] ∧
          containsSub (pyUpper (pyStrip s)) (toL "B") = true) ∧
    (∀ s, row.getD lv none = some s →
        containsSub (pyUpper (pyStrip s)) (toL "B") = false →
        processRow hdr lv d mat auth row n = .ok none) ∧
    (row.getD lv none = none → processRow hdr lv d mat auth row n = .ok none) := by
  refine ⟨?_, ?_, ?_⟩
  · intro it h
    have hl := (processRow_emit h).2.1
    rwa [levelOk_true_iff] at hl
  · intro s hs hc
    refine processRow_skip_of_levelFail (levelOk_false_of_noB ?_)
    intro s2 hs2
    rw [hs] at hs2
    injection hs2 with hs2
    rwa [← hs2]
  · intro hnone
    refine processRow_skip_of_levelFail ?_
    rw [hnone]
    rfl

/-- Witness for C3 amended: the `B` row of `tblA` is emitted and satisfies the
containment condition; a row with level text `C1` (no `B` anywhere) is
skipped. -/
theorem C3_level_containsB_witness :
    (∃ s, ([some (toL "B"), some (toL "ALPHA")] : List Cell).getD 0 none = some s ∧
        s ≠ [] ∧ pyStrip s ≠ [] ∧
        containsSub (pyUpper (pyStrip s)) (toL "B") = true) ∧
    processRow [some (toL "LV"), some (toL "DESC")] 0 1 none none
      [some (toL "C1"), some (toL "ALPHA")] 0 = .ok none :=
  ⟨(C3_level_containsB [some (toL "LV"), some (toL "DESC")] 0 1 none none
      [some (toL "B"), some (toL "ALPHA")] 0).1 ⟨1, toL "ALPHA", [], 1⟩ rfl,
   (C3_level_containsB [some (toL "LV"), some (toL "DESC")] 0 1 none none
      [some (toL "C1"), some (toL "ALPHA")] 0).2.1 (toL "C1") rfl rfl⟩

/-- C3 counterexample: the level cell `AB` does not begin with `B`, so the
claim requires the row to be rejected; the code emits it. -/
theorem C3_counterexample :
    extract_items_from_pdf (some docC) 0 = [⟨1, toL "WIDGET", [], 1⟩] ∧
    specLevelAccepts (toL "AB") = false :=
  ⟨by decide, by decide⟩

/-- C8 amended: description normalization first trims the whole cell text and
then splits it, and the chosen line is itself trimmed before the keyword
strip (see `normDesc`, mirroring source lines 109-126); a row is emitted only
when the normalized result is nonempty, and the emitted description is that
result truncated to 100 characters, hence never empty; a row whose cell is
absent, falsy, or whose normalized description is empty is skipped. -/
theorem C8_description_normalization (hdr : List Cell) (lv d : Nat)
    (mat auth : Option Nat) (row : List Cell) (n : Nat) :
    (∀ it, processRow hdr lv d mat auth row n = .ok (some it) →
        ∃ t, row.getD d none = some t ∧ t ≠ [] ∧ normDesc t ≠ [] ∧
          it.description = (normDesc t).take 100 ∧ it.description ≠ []) ∧
    (∀ t, row.getD d none = some t → normDesc t = [] →
        processRow hdr lv d mat auth row n = .ok none) ∧
    (row.getD d none = none → processRow hdr lv d mat auth row n = .ok none) := by
  refine ⟨?_, ?_, ?_⟩
  · intro it h
    obtain ⟨-, -, hne, hdval, -, -⟩ := processRow_emit h
    cases hcell : row.getD d none with
    | none => rw [hcell] at hne; simp [descOf] at hne
    | some t =>
      rw [hcell] at hne hdval
      by_cases ht : t.isEmpty
      · rw [List.isEmpty_iff] at ht
        subst ht
        simp [descOf] at hne
      · have ht' : t ≠ [] := by simpa [List.isEmpty_iff] using ht
        have hdo : descOf (some t) = normDesc t := by simp [descOf, ht]
        rw [hdo] at hne hdval
        refine ⟨t, rfl, ht', hne, hdval, ?_⟩
        rw [hdval]
        intro hc
        rw [List.take_eq_nil_iff] at hc
        rcases hc with hc | hc
        · omega
        · exact hne hc
  · intro t hcell hnil
    apply processRow_skip_of_descEmpty
    rw [hcell]
    by_cases ht : t.isEmpty
    · simp [descOf, ht]
    · simp [descOf, ht, hnil]
  · intro hcell
    apply processRow_skip_of_descEmpty
    rw [hcell]
    rfl

/-- Witness for C8 amended: the `ALPHA` row is emitted with the normalized
description, and a row whose description cell is `"((("` (which normalizes to
the empty string) is skipped. -/
theorem C8_description_normalization_witness :
    (∃ t, ([some (toL "B"), some (toL "ALPHA")] : List Cell).getD 1 none = some t ∧
        t ≠ [] ∧ normDesc t ≠ [] ∧
        (toL "ALPHA") = (normDesc t).take 100 ∧ (toL "ALPHA") ≠ []) ∧
    processRow [some (toL "LV"), some (toL "DESC")] 0 1 none none
      [some (toL "B"), some (toL "(((")] 0 = .ok none :=
  ⟨(C8_description_normalization [some (toL "LV"), some (toL "DESC")] 0 1 none none
      [some (toL "B"), some (toL "ALPHA")] 0).1 ⟨1, toL "ALPHA", [], 1⟩ rfl,
   (C8_description_normalization [some (toL "LV"), some (toL "DESC")] 0 1 none none
      [some (toL "B"), some (toL "(((")] 0).2.1 (toL "(((") rfl rfl⟩

/-- C8 counterexample: for the raw cell text `"\nCHEST\nWRENCH"` the claim's
pipeline (no initial trim) takes line index 1 of the raw text, `CHEST`, but
the code trims first and takes `WRENCH`; the emitted item shows `WRENCH`. -/
theorem C8_counterexample :
    extract_items_from_pdf (some docD) 0 = [⟨1, toL "WRENCH", [], 1⟩] ∧
    specDescLit (toL "\nCHEST\nWRENCH") = toL "CHEST" ∧
    toL "WRENCH" ≠ toL "CHEST" :=
  ⟨by decide, by decide, by decide⟩

/-- C9 amended: the quantity of an emitted item is the value of the first
digit run of the resolved quantity cell - which may be zero - and defaults
to 1 when the cell is absent, falsy, or has no digits; when no quantity
column was resolved the header is rescanned for the last cell containing
`OH` and `QTY` (source lines 153-156, even one already claimed by another
role), and only if that also fails is the quantity the constant 1. -/
theorem C9_quantity (hdr : List Cell) (lv d : Nat) (mat auth : Option Nat)
    (row : List Cell) (n : Nat) (it : BomItem)
    (h : processRow hdr lv d mat auth row n = .ok (some it)) :
    getQty hdr auth row = .ok it.qty ∧
    (∀ a, auth = some a → it.qty = parseQtyCell (row.getD a none)) ∧
    (auth = none → ∀ o, lastOhIdx hdr = some o →
        it.qty = parseQtyCell (row.getD o none)) ∧
    (auth = none → lastOhIdx hdr = none → it.qty = 1) := by
  have hq := (processRow_emit h).2.2.2.2.2
  refine ⟨hq, ?_, ?_, ?_⟩
  · intro a ha
    subst ha
    simp only [getQty] at hq
    by_cases hlen : a < row.length
    · rw [dif_pos hlen] at hq
      injection hq with hq
      rw [← hq, List.getD_eq_getElem _ _ hlen]
      rfl
    · rw [dif_neg hlen] at hq
      simp at hq
  · intro ha o ho
    subst ha
    simp only [getQty] at hq
    simp only [ho] at hq
    by_cases hlen : o < row.length
    · rw [dif_pos hlen] at hq
      injection hq with hq
      rw [← hq, List.getD_eq_getElem _ _ hlen]
      rfl
    · rw [dif_neg hlen] at hq
      simp at hq
  · intro ha ho
    subst ha
    simp only [getQty] at hq
    simp only [ho] at hq
    injection hq with hq
    exact hq.symm

/-- Witness for C9 at the `docE` row: the quantity cell `"0"` parses to 0. -/
theorem C9_quantity_witness :
    getQty [some (toL "LV"), some (toL "DESC"), some (toL "AUTH QTY")] (some 2)
        [some (toL "B"), some (toL "GADGET"), some (toL "0")] = .ok 0 ∧
    (0 : Nat) = parseQtyCell
        (([some (toL "B"), some (toL "GADGET"), some (toL "0")] : List Cell).getD 2 none) :=
  ⟨(C9_quantity [some (toL "LV"), some (toL "DESC"), some (toL "AUTH QTY")] 0 1
      none (some 2) [some (toL "B"), some (toL "GADGET"), some (toL "0")] 0
      ⟨1, toL "GADGET", [], 0⟩ rfl).1,
   (C9_quantity [some (toL "LV"), some (toL "DESC"), some (toL "AUTH QTY")] 0 1
      none (some 2) [some (toL "B"), some (toL "GADGET"), some (toL "0")] 0
      ⟨1, toL "GADGET", [], 0⟩ rfl).2.1 2 rfl⟩

/-- C9 counterexample: the quantity cell `"0"` yields an emitted item with
`qty = 0`, which is not a positive integer. -/
theorem C9_counterexample :
    extract_items_from_pdf (some docE) 0 = [⟨1, toL "GADGET", [], 0⟩] ∧
    ¬ 0 < (0 : Nat) :=
  ⟨by decide, by decide⟩

/-- The slice `items[18k : min(18(k+1), len)]` of source lines 206-208 is the
same as taking (at most) 18 items after dropping `18k`. -/
theorem sliceEq (l : List BomItem) (k : Nat) :
    (l.drop (18 * k)).take (min (18 * (k + 1)) l.length - 18 * k)
      = (l.drop (18 * k)).take 18 := by
  rcases Nat.le_total (18 * (k + 1)) l.length with h | h
  · rw [min_eq_left h]
    congr 1
    omega
  · rw [min_eq_right h]
    rcases Nat.le_total l.length (18 * k) with h2 | h2
    · have hd : l.drop (18 * k) = [] := List.drop_eq_nil_of_le h2
      rw [hd]
      simp
    · have hlen : (l.drop (18 * k)).length = l.length - 18 * k := List.length_drop _ _
      rw [List.take_of_length_le (by omega), List.take_of_length_le (by omega)]

/-- The paginator produces `ceil(n / 18)` chunks. -/
theorem pageChunks_length (l : List BomItem) :
    (pageChunks l).length = ceilD l.length := by
  induction l using pageChunks.induct with
  | case1 => rw [pageChunks.eq_def]; rfl
  | case2 c t ih =>
    rw [pageChunks]
    simp only [List.length_cons, List.length_drop, ceilD] at ih ⊢
    omega

/-- Chunk `k` of the paginator is the slice starting at `18k`. -/
theorem pageChunks_getElem (l : List BomItem) :
    ∀ (k : Nat) (h : k < (pageChunks l).length),
      (pageChunks l)[k] = (l.drop (18 * k)).take 18 := by
  induction l using pageChunks.induct with
  | case1 =>
    intro k h
    rw [pageChunks.eq_def] at h
    simp at h
  | case2 c t ih =>
    intro k h
    simp only [pageChunks] at h ⊢
    cases k with
    | zero => simp
    | succ k =>
      simp only [List.getElem_cons_succ]
      rw [ih k (by simpa using h), List.drop_drop]
      congr 2
      ring

/-- Concatenating the paginator's chunks restores the item list. -/
theorem pageChunks_flatten (l : List BomItem) : (pageChunks l).flatten = l := by
  induction l using pageChunks.induct with
  | case1 => rw [pageChunks.eq_def]; rfl
  | case2 c t ih =>
    rw [pageChunks, List.flatten_cons, ih, List.take_append_drop]

/-- Every chunk holds at most 18 items. -/
theorem pageChunks_le18 (l : List BomItem) :
    ∀ p ∈ pageChunks l, p.length ≤ 18 := by
  induction l using pageChunks.induct with
  | case1 => intro p hp; rw [pageChunks.eq_def] at hp; simp at hp
  | case2 c t ih =>
    intro p hp
    rw [pageChunks] at hp
    rcases List.mem_cons.mp hp with h | h
    · rw [h]
      exact List.length_take_le _ _
    · exact ih p h

/-- The writer loop of source lines 205-248 produces `ceil(n / 18)` pages. -/
theorem buildPages_length (items : List BomItem) (tplLen : Nat) :
    (buildPages items tplLen).length = ceilD items.length := by
  simp [buildPages]

/-- The overlays of the generated pages are exactly the paginator's chunks. -/
theorem buildPages_overlay (items : List BomItem) (tplLen : Nat) :
    (buildPages items tplLen).map OutPage.overlay = pageChunks items := by
  apply List.ext_getElem
  · simp [buildPages, pageChunks_length]
  · intro n h1 h2
    have hn : n < ceilD items.length := by simpa [buildPages] using h1
    simp only [List.getElem_map, buildPages, List.getElem_range]
    rw [pageChunks_getElem items n (by simpa [pageChunks_length] using hn)]
    exact sliceEq items n

/-- A nonempty list is not `isEmpty`. -/
theorem neNil_isEmpty {l : List BomItem} (h : l ≠ []) : l.isEmpty = false := by
  cases l with
  | nil => exact absurd rfl h
  | cons a t => rfl

/-- C5: with a successful write, for `N > 0` extracted items the output
document has exactly `ceilD N = ceil(N/18)` pages whose overlays are the
paginator's chunks - the items in order, 18 per page, at most 18 on the last;
for `N = 0` the output is exactly one page, the template's first page
unchanged, and the returned count is 0. -/
theorem C5_pagination (doc : Option (List PPage)) (tplLen : Nat)
    (htpl : 0 < tplLen) :
    (extract_items_from_pdf doc 0 = [] →
        generate_dd1750_from_pdf doc tplLen true true = .ok (some [⟨0, []⟩], 0)) ∧
    (extract_items_from_pdf doc 0 ≠ [] →
        ∃ pages,
          generate_dd1750_from_pdf doc tplLen true true
            = .ok (some pages, (extract_items_from_pdf doc 0).length) ∧
          pages.length = ceilD (extract_items_from_pdf doc 0).length ∧
          (extract_items_from_pdf doc 0).length ≤ 18 * pages.length ∧
          18 * (pages.length - 1) < (extract_items_from_pdf doc 0).length ∧
          pages.map OutPage.overlay = pageChunks (extract_items_from_pdf doc 0) ∧
          (pages.map OutPage.overlay).flatten = extract_items_from_pdf doc 0 ∧
          ∀ k, k < pages.length →
            (pages.getD k ⟨0, []⟩).overlay
              = ((extract_items_from_pdf doc 0).drop (18 * k)).take 18) := by
  have htz : ¬ (tplLen = 0) := by omega
  constructor
  · intro h
    unfold generate_dd1750_from_pdf generateFromItems
    rw [h]
    simp [htz]
  · intro h
    have hie : (extract_items_from_pdf doc 0).isEmpty = false := neNil_isEmpty h
    have hpos : 0 < (extract_items_from_pdf doc 0).length := List.length_pos.mpr h
    refine ⟨buildPages (extract_items_from_pdf doc 0) tplLen, ?_,
      buildPages_length _ _, ?_, ?_, buildPages_overlay _ _, ?_, ?_⟩
    · unfold generate_dd1750_from_pdf generateFromItems
      rw [hie]
      simp [htz]
    · rw [buildPages_length]
      simp only [ceilD]
      omega
    · rw [buildPages_length]
      simp only [ceilD]
      omega
    · rw [buildPages_overlay, pageChunks_flatten]
    · intro k hk
      rw [List.getD_eq_getElem _ _ hk]
      simp only [buildPages, List.getElem_map, List.getElem_range]
      exact sliceEq _ k

/-- Witness for C5 at the one-item document `docA`. -/
theorem C5_pagination_witness :
    extract_items_from_pdf (some docA) 0 ≠ [] ∧
    (∃ pages,
      generate_dd1750_from_pdf (some docA) 1 true true
        = .ok (some pages, (extract_items_from_pdf (some docA) 0).length) ∧
      pages.length = ceilD (extract_items_from_pdf (some docA) 0).length ∧
      (extract_items_from_pdf (some docA) 0).length ≤ 18 * pages.length ∧
      18 * (pages.length - 1) < (extract_items_from_pdf (some docA) 0).length ∧
      pages.map OutPage.overlay = pageChunks (extract_items_from_pdf (some docA) 0) ∧
      (pages.map OutPage.overlay).flatten = extract_items_from_pdf (some docA) 0 ∧
      ∀ k, k < pages.length →
        (pages.getD k ⟨0, []⟩).overlay
          = ((extract_items_from_pdf (some docA) 0).drop (18 * k)).take 18) :=
  ⟨by decide, (C5_pagination (some docA) 1 (by decide)).2 (by decide)⟩

/-- C2 amended: when the main write of the assembled document fails (lines
252-256) and items were extracted, the failure is caught (lines 257-271): the
code attempts to write the bare template page instead, swallows even a
failure of that, and still returns the normal `(out_path, len(items))` result
- the caller cannot distinguish a failed write from success by the returned
value.  Only in the zero-item path (line 195, outside any `try`) does a write
failure propagate as an error. -/
theorem C2_write_failure_swallowed :
    (∀ (doc : Option (List PPage)) (tplLen : Nat) (fbOk : Bool), 0 < tplLen →
        extract_items_from_pdf doc 0 ≠ [] →
        generate_dd1750_from_pdf doc tplLen false fbOk
          = .ok ((if fbOk then some [⟨0, []⟩] else none),
                 (extract_items_from_pdf doc 0).length)) ∧
    (∀ (doc : Option (List PPage)) (tplLen : Nat) (fbOk : Bool), 0 < tplLen →
        extract_items_from_pdf doc 0 = [] →
        generate_dd1750_from_pdf doc tplLen false fbOk = .error .writeError) := by
  constructor
  · intro doc tplLen fbOk htpl hne
    have htz : ¬ (tplLen = 0) := by omega
    have hie : (extract_items_from_pdf doc 0).isEmpty = false := neNil_isEmpty hne
    unfold generate_dd1750_from_pdf generateFromItems
    rw [hie]
    cases fbOk <;> simp [htz]
  · intro doc tplLen fbOk htpl hemp
    have htz : ¬ (tplLen = 0) := by omega
    unfold generate_dd1750_from_pdf generateFromItems
    rw [hemp]
    simp [htz]

/-- Witness for C2 amended: with one extracted item and both writes failing,
the function still reports one item; with no items, a failed write errors. -/
theorem C2_write_failure_swallowed_witness :
    (extract_items_from_pdf (some docA) 0 ≠ [] ∧
     generate_dd1750_from_pdf (some docA) 1 false false
       = .ok ((if false then some [⟨0, []⟩] else none),
              (extract_items_from_pdf (some docA) 0).length)) ∧
    (extract_items_from_pdf none 0 = [] ∧
     generate_dd1750_from_pdf none 1 false true = .error .writeError) :=
  ⟨⟨by decide, C2_write_failure_swallowed.1 (some docA) 1 false (by decide) (by decide)⟩,
   ⟨rfl, C2_write_failure_swallowed.2 none 1 true (by decide) rfl⟩⟩

/-- C2 counterexample: with one extracted item and a failed main write (but a
successful fallback write of the bare template page), the function returns
the normal `(out_path, 1)` success value instead of an error result - a
failed write is indistinguishable from success. -/
theorem C2_counterexample :
    generate_dd1750_from_pdf (some docA) 1 false true = .ok (some [⟨0, []⟩], 1) ∧
    (1 : Nat) ≠ 0 :=
  ⟨rfl, by decide⟩

/-- C1: `generate_dd1750_from_pdf` has no start-page parameter (source line
184) and always extracts from page 0 (line 185), even though `app.py` lines
56-61 pass `start_page=` (which raises a TypeError in Python).  On the
two-page `docB` the generated output covers both pages' items (count 2),
whereas extraction from page 1 - what the claim promises for
`start_page = 1` - yields 1 item. -/
theorem C1_no_start_page :
    generate_dd1750_from_pdf (some docB) 1 true true
      = .ok (some [⟨0, [⟨1, toL "ALPHA", [], 1⟩, ⟨2, toL "BRAVO", [], 1⟩]⟩], 2) ∧
    (extract_items_from_pdf (some docB) 1).length = 1 ∧
    (2 : Nat) ≠ 1 :=
  ⟨rfl, by decide, by decide⟩
